import Mathlib

/-!
Shallow embedding of `src/node.py` (NodePay presence bot): per-account
session state machine (authentication, heartbeat/ping cycle, failure
handling), the HTTP retry wrapper `perform_request`, and the session
loop of `main`.  Network effects are modelled by oracles giving the
outcome of each request; simulated time is a `Nat` parameter.
-/

namespace Node

/-- `PING_INTERVAL = 180` (src/node.py line 22). -/
def PING_INTERVAL : Nat := 180

/-- `ConnectionStates` enum (src/node.py lines 25-28). -/
inductive ConnectionStates where
  | CONNECTED
  | DISCONNECTED
  | NONE_CONNECTION
deriving DecidableEq, Repr

/-- The decoded `data` field of a JSON response body.  `uid = some s`
models the key `'uid'` being present with value `s` (possibly the empty
string); `none` models an absent key.  Likewise for `ip_score`. -/
structure RespData where
  uid : Option String := none
  ip_score : Option Int := none
deriving DecidableEq, Repr

/-- A decoded JSON response dict `{code?, message?, data?}`.  A field is
`none` when the key is absent from the dict. -/
structure Response where
  code : Option Int := none
  message : Option String := none
  data : Option RespData := none
deriving DecidableEq, Repr

/-- Models the Python test `response and response.get('code') == c` for a
possibly-`None` response.  (`None` is falsy; an empty dict is falsy but
also has no `'code'` key, so folding truthiness into the code test gives
the same boolean as the source.) -/
def respCodeIs (r : Option Response) (c : Int) : Bool :=
  match r with
  | some resp => resp.code == some c
  | none => false

/-- `response.get('data', {}).get('ip_score', 0)` (src/node.py line 274);
the `none` branch is unreachable on the success path where it is read. -/
def respScore (r : Option Response) : Int :=
  match r with
  | some resp => (resp.data.getD {}).ip_score.getD 0
  | none => 0

/-! ### `perform_request` — retry wrapper (src/node.py lines 174-219)

The outcome of one transport attempt, as `perform_request` observes it:
a 200 response with a decoded body, a non-200 HTTP status, or a raised
exception (network error, timeout, body-decode failure). -/

inductive TransportOutcome where
  | ok (resp : Response)
  | httpError (status : Nat)
  | exn
deriving DecidableEq, Repr

/-- The `for attempt in range(max_retries)` loop of `perform_request`.
`outcome a` is the transport outcome of attempt number `a` (0-based);
`attempt + remaining = maxRetries` throughout.  Returns
(returned value, total backoff slept, attempts made).
Per the source: a 200 response is returned at once; a 403 status returns
`None` at once; any other non-200 status just continues (no sleep); an
exception sleeps `2 ** attempt` unless this was the last attempt. -/
def performRequestGo (outcome : Nat → TransportOutcome) (maxRetries : Nat) :
    Nat → Nat → Nat → Nat → Option Response × Nat × Nat
  | _, waited, made, 0 => (none, waited, made)
  | attempt, waited, made, remaining + 1 =>
    match outcome attempt with
    | .ok r => (some r, waited, made + 1)
    | .httpError status =>
      if status = 403 then (none, waited, made + 1)
      else performRequestGo outcome maxRetries (attempt + 1) waited (made + 1) remaining
    | .exn =>
      let w := if attempt < maxRetries - 1 then 2 ^ attempt else 0
      performRequestGo outcome maxRetries (attempt + 1) (waited + w) (made + 1) remaining

/-- `perform_request` with its default `max_retries=3` (src/node.py 174). -/
def perform_request (outcome : Nat → TransportOutcome) (maxRetries : Nat := 3) :
    Option Response × Nat × Nat :=
  performRequestGo outcome maxRetries 0 0 0 maxRetries

/-! ### Session state (`AccountSession.__init__`, src/node.py lines 76-89) -/

/-- `f"browser_{i}_{int(time.time())}"` (src/node.py line 107). -/
def mkBrowserId (i t : Nat) : String :=
  "browser_" ++ Nat.repr i ++ "_" ++ Nat.repr t

/-- Reference big-endian decimal digit list of `n`; equals what the
fuelled `Nat.toDigitsCore` underlying `Nat.repr` produces, and is used
to prove browser-id strings distinct for distinct indices. -/
def decDigits (n : Nat) : List Char :=
  if h : n / 10 = 0 then [Nat.digitChar (n % 10)]
  else decDigits (n / 10) ++ [Nat.digitChar (n % 10)]
termination_by n
decreasing_by
  have hn : n ≠ 0 := fun h0 => h (by simp [h0])
  exact Nat.div_lt_self (Nat.pos_of_ne_zero hn) (by norm_num)

/-- Numeric value of a big-endian decimal digit list. -/
def decValue (l : List Char) : Nat :=
  l.foldl (fun a c => 10 * a + (c.toNat - 48)) 0

/-- One entry of `self.browser_stats` (src/node.py lines 106-113). -/
structure BrowserStat where
  browser_id : String
  ping_count : Nat
  successful_pings : Nat
  score : Int
  start_time : Nat
  last_ping_time : Option Nat
deriving DecidableEq, Repr

instance : Inhabited BrowserStat := ⟨⟨"", 0, 0, 0, 0, none⟩⟩

/-- The mutable fields of `AccountSession` that the state machine touches.
`account_info` is the dict assigned from `response.get('data', {})`;
clearing it (`self.account_info = {}`) is the default `RespData`. -/
structure SessionState where
  proxies : List String
  browser_stats : List BrowserStat
  account_info : RespData
  proxy_auth_status : Bool
  status_connect : ConnectionStates
  retries : Nat
  last_ping_time : Nat
deriving DecidableEq, Repr

/-- The field values set in `__init__` (src/node.py lines 80-89), before
`get_proxies` fills `proxies`. -/
def initialSession (proxies : List String) : SessionState :=
  { proxies := proxies
    browser_stats := []
    account_info := {}
    proxy_auth_status := false
    status_connect := .NONE_CONNECTION
    retries := 0
    last_ping_time := 0 }

/-- In-place mutation of `self.browser_stats[i]` (the Python dict is
aliased by `browser_stat`, so updates hit the list entry). -/
def updateStat (s : SessionState) (i : Nat) (f : BrowserStat → BrowserStat) :
    SessionState :=
  { s with browser_stats := s.browser_stats.set i (f (s.browser_stats.getD i default)) }

/-- `initialize_browser_stats` (src/node.py lines 102-113): one zeroed
record per proxy; `t` is the (integer) initialization time used both in
the id string and as `start_time`. -/
def initialize_browser_stats (t : Nat) (s : SessionState) : SessionState :=
  { s with browser_stats := (List.range s.proxies.length).map (fun i =>
      { browser_id := mkBrowserId i t
        ping_count := 0
        successful_pings := 0
        score := 0
        start_time := t
        last_ping_time := none }) }

/-! ### Failure handling (src/node.py lines 291-305) -/

/-- `handle_logout` (src/node.py lines 300-305). -/
def handle_logout (s : SessionState) : SessionState :=
  { s with status_connect := .NONE_CONNECTION
           account_info := {}
           proxy_auth_status := false }

/-- `handle_ping_fail` (src/node.py lines 291-298): increment `retries`
unconditionally, then either log out (code 403) or, at `retries >= 3`,
mark disconnected. -/
def handle_ping_fail (s : SessionState) (response : Option Response) : SessionState :=
  let s1 := { s with retries := s.retries + 1 }
  if respCodeIs response 403 then handle_logout s1
  else if s1.retries ≥ 3 then { s1 with status_connect := .DISCONNECTED }
  else s1

/-! ### `authenticate` (src/node.py lines 143-172)

`net i` is the value `perform_request` returns for the attempt through
proxy number `i` (`None` or a decoded body).  Returns the new state and
the number of session-creation requests issued. -/

/-- The `for i, proxy in enumerate(self.proxies)` loop of `authenticate`.
Per iteration: skip if already authenticated; otherwise issue the request;
continue on `not response` / `code != 0`; on code 0, assign
`account_info = response.get('data', {})` and break iff `'uid'` is
present (`save_session_info` is a no-op stub). -/
def authGo (net : Nat → Option Response) : List Nat → SessionState → SessionState × Nat
  | [], s => (s, 0)
  | i :: rest, s =>
    if s.proxy_auth_status then authGo net rest s
    else
      match net i with
      | none =>
        let q := authGo net rest s
        (q.1, q.2 + 1)
      | some resp =>
        if resp.code ≠ some 0 then
          let q := authGo net rest s
          (q.1, q.2 + 1)
        else
          let s1 := { s with account_info := resp.data.getD {} }
          if (resp.data.getD {}).uid.isSome then
            ({ s1 with proxy_auth_status := true }, 1)
          else
            let q := authGo net rest s1
            (q.1, q.2 + 1)

/-- `authenticate` (src/node.py lines 143-172). -/
def authenticate (net : Nat → Option Response) (s : SessionState) :
    SessionState × Nat :=
  authGo net (List.range s.proxies.length) s

/-- The success condition as the spec words it (§6): `code == 0` with
NON-EMPTY `data.uid`.  Stated for comparison with the source's check,
which only tests key presence (`'uid' in self.account_info`). -/
def specAuthSuccess (r : Option Response) : Prop :=
  respCodeIs r 0 = true ∧ ∃ u, (match r with
    | some resp => (resp.data.getD {}).uid
    | none => none) = some u ∧ u ≠ ""

/-- The success condition the source actually tests: code 0 and the
`'uid'` key present in `data` (src/node.py lines 158-164). -/
def codeAuthSuccess (r : Option Response) : Bool :=
  match r with
  | some resp => resp.code == some 0 && (resp.data.getD {}).uid.isSome
  | none => false

/-! ### `ping` — heartbeat cycle (src/node.py lines 235-289)

`net i e` is the value `perform_request` returns for proxy `i` at ping
endpoint `e`.  `DOMAIN_API['PING']` has exactly one endpoint. -/

/-- `DOMAIN_API['PING']` (src/node.py lines 17-19). -/
def PING_ENDPOINTS : List String := ["https://nw.nodepay.ai/api/network/ping"]

/-- One heartbeat endpoint attempt for proxy `i` (body of the
`for ping_api in DOMAIN_API['PING']` loop, src/node.py lines 262-281):
increment `ping_count`; on `response and response.get('code') == 0`
reset `retries`, set CONNECTED, increment `successful_pings`, store the
score, and report success (break). -/
def pingAttempt (s : SessionState) (i : Nat) (r : Option Response) :
    SessionState × Bool :=
  let s1 := updateStat s i (fun b => { b with ping_count := b.ping_count + 1 })
  if respCodeIs r 0 then
    let s2 := { s1 with retries := 0, status_connect := .CONNECTED }
    (updateStat s2 i (fun b =>
      { b with successful_pings := b.successful_pings + 1, score := respScore r }), true)
  else (s1, false)

/-- The endpoint loop for one proxy: try endpoints in order, stop at the
first success; also track the last response seen (the Python variable
`response` after the loop) and the number of requests made. -/
def pingEndpoints (s : SessionState) (i : Nat) :
    List (Option Response) → Option Response → SessionState × Bool × Option Response × Nat
  | [], lastResp => (s, false, lastResp, 0)
  | r :: rest, _ =>
    let p := pingAttempt s i r
    if p.2 then (p.1, true, r, 1)
    else
      let q := pingEndpoints p.1 i rest r
      (q.1, q.2.1, q.2.2.1, q.2.2.2 + 1)

/-- Body of the `for i, proxy in enumerate(self.proxies)` loop in `ping`
(src/node.py lines 246-285): skip if there is no stats record for `i`;
stamp the record's `last_ping_time`; run the endpoint loop; on overall
failure call `handle_ping_fail` with the last response. -/
def pingProxy (net : Nat → Nat → Option Response) (t : Nat) (s : SessionState)
    (i : Nat) : SessionState × Nat :=
  if s.browser_stats.length ≤ i then (s, 0)
  else
    let s1 := updateStat s i (fun b => { b with last_ping_time := some t })
    let resps := (List.range PING_ENDPOINTS.length).map (fun e => net i e)
    let q := pingEndpoints s1 i resps none
    if q.2.1 then (q.1, q.2.2.2)
    else (handle_ping_fail q.1 q.2.2.1, q.2.2.2)

/-- `ping` (src/node.py lines 235-289): skip (no-op) when less than
`PING_INTERVAL` has elapsed since the last non-skipped cycle start;
otherwise stamp `last_ping_time` and run the proxy loop.  Returns the
new state and the number of heartbeat requests issued. -/
def ping (net : Nat → Nat → Option Response) (t : Nat) (s : SessionState) :
    SessionState × Nat :=
  if t - s.last_ping_time < PING_INTERVAL then (s, 0)
  else
    let s0 := { s with last_ping_time := t }
    (List.range s0.proxies.length).foldl
      (fun acc i =>
        let p := pingProxy net t acc.1 i
        (p.1, acc.2 + p.2))
      (s0, 0)

/-! ### `main` — session startup loop (src/node.py lines 352-365)

```
for index, token in enumerate(tokens, start=1):
    try:
        session = AccountSession(token, index)
        await session.init()
        sessions.append(session)
        self.logger.info(f"Session {index} initialized successfully")
        # Stagger initialization
        if index < len(tokens):
            await asyncio.sleep(10)
    except Exception as error:
        print(f"Failed to initialize session {index}: {error}")
```

`main` is a plain module-level function, so the name `self` on line 358
is unbound: evaluating `self.logger` raises `NameError`, which the
`except` clause catches — skipping the stagger sleep.  The trace records
what one iteration does; `selfBound` records whether the name `self` is
bound in `main`'s scope (in the source it is not). -/

inductive MainEvent where
  /-- `AccountSession(token, index)` constructed, `init()` awaited
  (it catches its own exceptions), session appended. -/
  | initSession (index : Nat)
  /-- the `self.logger.info(...)` line, were `self` bound -/
  | logInitialized (index : Nat)
  /-- `await asyncio.sleep(10)` — the stagger delay -/
  | staggerSleep (seconds : Nat)
  /-- the `except` clause's `print(f"Failed to initialize session ...")` -/
  | printInitError (index : Nat)
deriving DecidableEq, Repr

/-- One iteration of the session loop, `index` running from 1. -/
def mainIter (selfBound : Bool) (index total : Nat) : List MainEvent :=
  [MainEvent.initSession index] ++
    (if selfBound then
       [MainEvent.logInitialized index] ++
         (if index < total then [MainEvent.staggerSleep 10] else [])
     else
       -- `self.logger` raises NameError; the except clause prints and the
       -- stagger sleep is never reached.
       [MainEvent.printInitError index])

/-- The whole session loop over `total` tokens. -/
def sessionLoopTrace (selfBound : Bool) (total : Nat) : List MainEvent :=
  (List.range total).flatMap (fun k => mainIter selfBound (k + 1) total)

/-- How many stagger delays elapse in a trace. -/
def staggerSleeps (tr : List MainEvent) : Nat :=
  tr.countP fun e => match e with | .staggerSleep _ => true | _ => false

/-! ### Concrete instances used as counterexamples and witnesses -/

/-- A transport returning HTTP 500 on the first two attempts and 200 on
the third. -/
def httpFailTwiceOutcome : Nat → TransportOutcome := fun a =>
  if a < 2 then .httpError 500 else .ok { code := some 0 }

/-- A transport that raises on the first two attempts, then succeeds. -/
def exnFailTwiceOutcome : Nat → TransportOutcome := fun a =>
  if a < 2 then .exn else .ok { code := some 0 }

/-- A transport answering HTTP 403 at once (later attempts would
succeed, but must never be made). -/
def http403Outcome : Nat → TransportOutcome := fun a =>
  if a = 0 then .httpError 403 else .ok { code := some 0 }

/-- A transport that raises on every attempt (unreachable endpoint). -/
def allExnOutcome : Nat → TransportOutcome := fun _ => .exn

/-- An application response with `code == 403`. -/
def resp403 : Response := { code := some 403 }

/-- A connected, authenticated session with `retries = 0`. -/
def connectedSession : SessionState :=
  { proxies := ["p1"]
    browser_stats := []
    account_info := { uid := some "u7" }
    proxy_auth_status := true
    status_connect := .CONNECTED
    retries := 0
    last_ping_time := 0 }

/-- A run of consecutive heartbeat failures, one `handle_ping_fail` call
per failed attempt. -/
def failSeq (s : SessionState) (rs : List (Option Response)) : SessionState :=
  rs.foldl handle_ping_fail s

/-- A network on which every request gets no response. -/
def noResponseNet : Nat → Nat → Option Response := fun _ _ => none

/-- A one-proxy session right after `initialize_browser_stats` ran at
time 100. -/
def freshSession : SessionState :=
  initialize_browser_stats 100 (initialSession ["p1"])

/-- A network on which every heartbeat answers code 0 with ip_score 87. -/
def score87Net : Nat → Nat → Option Response := fun _ _ =>
  some { code := some 0, data := some { ip_score := some 87 } }

/-- An authentication endpoint answering code 0 with an EMPTY `uid`. -/
def emptyUidNet : Nat → Option Response := fun _ =>
  some { code := some 0, data := some { uid := some "" } }

/-- An authentication endpoint unreachable through proxy 0 and
succeeding with uid `"abc"` through any later proxy. -/
def uidNet : Nat → Option Response := fun i =>
  if i = 0 then none
  else some { code := some 0, data := some { uid := some "abc" } }

/-! ## Theorems -/

/-! ### C1 — startup stagger delay -/

/-- C1.  With 3 credentials the source's session loop performs zero
stagger sleeps, not two: the unbound name `self` in
`self.logger.info(...)` (src/node.py line 358) raises `NameError` after
every `init()`, the `except` clause catches it, and the
`await asyncio.sleep(10)` on line 362 is never reached.  Had `self` been
bound (the evident intent, per the `# Stagger initialization` comment),
the delay would elapse exactly twice. -/
theorem stagger_sleep_skipped_by_name_error :
    staggerSleeps (sessionLoopTrace false 3) = 0 ∧
    staggerSleeps (sessionLoopTrace true 3) = 2 :=
  ⟨rfl, rfl⟩

/-! ### C2 — retry wrapper backoff -/

/-- C2 counterexample.  A non-2xx (non-403) HTTP status is one of the
claim's listed failure kinds, yet the wrapper retries it with NO backoff:
failing twice with HTTP 500 and succeeding on the third attempt returns
the result after a total backoff of 0 time-units, not the claimed
`1 + 2` — the `await asyncio.sleep(2 ** attempt)` (src/node.py line 216)
sits in the `except` clause, which a non-200 status does not raise into. -/
theorem backoff_not_waited_on_http_status_failure :
    perform_request httpFailTwiceOutcome = (some { code := some 0 }, 0, 3) ∧
    (0 : Nat) ≠ 1 + 2 :=
  ⟨rfl, by decide⟩

/-- Attempts made never exceed `made + remaining`. -/
theorem performRequestGo_made_le (outcome : Nat → TransportOutcome)
    (maxRetries : Nat) :
    ∀ remaining attempt waited made,
      (performRequestGo outcome maxRetries attempt waited made remaining).2.2 ≤
        made + remaining := by
  intro remaining
  induction remaining with
  | zero => intro attempt waited made; simp [performRequestGo]
  | succ k ih =>
    intro attempt waited made
    simp only [performRequestGo]
    cases outcome attempt with
    | ok r => simp
    | httpError status =>
      by_cases h : status = 403
      · simp [h]
      · simp [h]
        calc (performRequestGo outcome maxRetries (attempt + 1) waited (made + 1) k).2.2
            ≤ made + 1 + k := ih (attempt + 1) waited (made + 1)
          _ ≤ made + (k + 1) := by omega
    | exn =>
      calc (performRequestGo outcome maxRetries (attempt + 1)
              (waited + if attempt < maxRetries - 1 then 2 ^ attempt else 0)
              (made + 1) k).2.2
          ≤ made + 1 + k := ih (attempt + 1) _ (made + 1)
        _ ≤ made + (k + 1) := by omega

/-- C2 amended.  The wrapper makes at most 3 attempts.  Backoff of
`2^attempt` time-units is waited only after failures that raise an
exception (network error, timeout) and never after the final attempt: a
transport raising twice then succeeding returns the result with total
backoff `1 + 2`; a transport answering a non-2xx, non-403 HTTP status
twice then succeeding returns the result with total backoff 0. -/
theorem retry_wrapper_backoff_amended :
    (∀ outcome : Nat → TransportOutcome, (perform_request outcome).2.2 ≤ 3) ∧
    (∀ (outcome : Nat → TransportOutcome) (r : Response),
      outcome 0 = .exn → outcome 1 = .exn → outcome 2 = .ok r →
      perform_request outcome = (some r, 1 + 2, 3)) ∧
    (∀ (outcome : Nat → TransportOutcome) (r : Response) (s0 s1 : Nat),
      outcome 0 = .httpError s0 → s0 ≠ 403 →
      outcome 1 = .httpError s1 → s1 ≠ 403 →
      outcome 2 = .ok r →
      perform_request outcome = (some r, 0, 3)) := by
  refine ⟨fun outcome => performRequestGo_made_le outcome 3 3 0 0 0, ?_, ?_⟩
  · intro outcome r h0 h1 h2
    simp [perform_request, performRequestGo, h0, h1, h2]
  · intro outcome r s0 s1 h0 hs0 h1 hs1 h2
    simp [perform_request, performRequestGo, h0, h1, h2, hs0, hs1]

/-- C2 amended, witnessed at concrete transports. -/
theorem retry_wrapper_backoff_amended_witness :
    (perform_request exnFailTwiceOutcome).2.2 ≤ 3 ∧
    perform_request exnFailTwiceOutcome = (some { code := some 0 }, 1 + 2, 3) ∧
    perform_request httpFailTwiceOutcome = (some { code := some 0 }, 0, 3) :=
  ⟨retry_wrapper_backoff_amended.1 exnFailTwiceOutcome,
   retry_wrapper_backoff_amended.2.1 exnFailTwiceOutcome _ rfl rfl rfl,
   retry_wrapper_backoff_amended.2.2 httpFailTwiceOutcome _ 500 500 rfl
     (by decide) rfl (by decide) rfl⟩

/-! ### C7 — 403 is final -/

/-- C7 counterexample.  A 403 makes the wrapper return `None`
immediately (src/node.py lines 210-211) — the very same "no response"
value that exhausting all attempts yields — so the 403 outcome is NOT
returned as distinct from exhaustion: callers cannot tell the two
apart. -/
theorem final_403_indistinguishable_from_exhaustion :
    perform_request http403Outcome = (none, 0, 1) ∧
    perform_request allExnOutcome = (none, 1 + 2, 3) ∧
    (perform_request http403Outcome).1 = (perform_request allExnOutcome).1 :=
  ⟨rfl, rfl, rfl⟩

/-- C7 amended.  An HTTP 403 response is definitively final: the wrapper
stops after that single attempt, waits no backoff, and returns
immediately — but what it returns is `None`, the same "no response"
value produced by exhausting all attempts, so the caller treats both
identically. -/
theorem final_403_returns_immediately :
    (∀ outcome : Nat → TransportOutcome,
      outcome 0 = .httpError 403 → perform_request outcome = (none, 0, 1)) ∧
    (∀ outcome : Nat → TransportOutcome,
      (∀ a, a < 3 → outcome a = .exn) →
      perform_request outcome = (none, 1 + 2, 3)) := by
  constructor
  · intro outcome h0
    simp [perform_request, performRequestGo, h0]
  · intro outcome h
    simp [perform_request, performRequestGo,
      h 0 (by decide), h 1 (by decide), h 2 (by decide)]

/-- C7 amended, witnessed at concrete transports. -/
theorem final_403_returns_immediately_witness :
    perform_request http403Outcome = (none, 0, 1) ∧
    perform_request allExnOutcome = (none, 1 + 2, 3) :=
  ⟨final_403_returns_immediately.1 http403Outcome rfl,
   final_403_returns_immediately.2 allExnOutcome (fun _ _ => rfl)⟩

/-! ### C3 — auth-rejection (code 403) during a heartbeat -/

/-- C3 counterexample.  `handle_ping_fail` increments `self.retries`
unconditionally on its first line (src/node.py line 293), BEFORE testing
for code 403 — so the auth-rejection path does increment
`consecutiveFailures`, contrary to the claim that only
non-auth-rejection failures increment it. -/
theorem auth_rejection_increments_retries :
    connectedSession.retries = 0 ∧
    (handle_ping_fail connectedSession (some resp403)).retries = 1 := by
  exact ⟨rfl, by decide⟩

/-- C3 amended.  A failed heartbeat whose response carries code 403
clears `account_info`, sets `state = NONE_CONNECTION`, and marks the
session unauthenticated, independent of the current `retries` count —
but `retries` is ALSO incremented on this path (the increment precedes
the 403 test), and the `retries >= 3` disconnect check is skipped. -/
theorem auth_rejection_clears_identity (s : SessionState) (r : Option Response)
    (h : respCodeIs r 403 = true) :
    (handle_ping_fail s r).account_info = {} ∧
    (handle_ping_fail s r).status_connect = .NONE_CONNECTION ∧
    (handle_ping_fail s r).proxy_auth_status = false ∧
    (handle_ping_fail s r).retries = s.retries + 1 := by
  simp [handle_ping_fail, handle_logout, h]

/-- C3 amended, witnessed on a session with 5 accumulated failures. -/
theorem auth_rejection_clears_identity_witness :
    (handle_ping_fail { connectedSession with retries := 5 }
        (some resp403)).account_info = {} ∧
    (handle_ping_fail { connectedSession with retries := 5 }
        (some resp403)).status_connect = .NONE_CONNECTION ∧
    (handle_ping_fail { connectedSession with retries := 5 }
        (some resp403)).proxy_auth_status = false ∧
    (handle_ping_fail { connectedSession with retries := 5 }
        (some resp403)).retries = 5 + 1 :=
  auth_rejection_clears_identity { connectedSession with retries := 5 }
    (some resp403) (by decide)

/-! ### C4 — three consecutive non-auth failures disconnect -/

/-- On a non-403 failure, `handle_ping_fail` bumps `retries` and marks
`DISCONNECTED` iff the new count reaches 3. -/
theorem handle_ping_fail_not403 (s : SessionState) (r : Option Response)
    (h : respCodeIs r 403 = false) :
    handle_ping_fail s r =
      if s.retries + 1 ≥ 3 then
        { s with retries := s.retries + 1, status_connect := .DISCONNECTED }
      else { s with retries := s.retries + 1 } := by
  simp [handle_ping_fail, h]

/-- C4.  Starting from `retries = 0`, for a sequence of consecutive
failures none of which carries code 403: below 3 failures the connection
state is exactly the prior state (no transition, in particular never to
`DISCONNECTED`, and not reset to `CONNECTED`); at exactly 3 unbroken
failures the state is `DISCONNECTED`. -/
theorem three_failures_disconnect (s : SessionState)
    (rs : List (Option Response)) (h0 : s.retries = 0)
    (hna : ∀ r ∈ rs, respCodeIs r 403 = false) :
    (rs.length < 3 → (failSeq s rs).status_connect = s.status_connect) ∧
    (rs.length = 3 → (failSeq s rs).status_connect = .DISCONNECTED) := by
  rcases rs with _ | ⟨a, _ | ⟨b, _ | ⟨c, rest⟩⟩⟩
  · exact ⟨fun _ => rfl, fun h => by simp at h⟩
  · refine ⟨fun _ => ?_, fun h => by simp at h⟩
    simp [failSeq, handle_ping_fail_not403 _ _ (hna a (by simp)), h0]
  · refine ⟨fun _ => ?_, fun h => by simp at h⟩
    simp [failSeq, handle_ping_fail_not403 _ _ (hna a (by simp)),
      handle_ping_fail_not403 _ _ (hna b (by simp)), h0]
  · constructor
    · intro hlen
      simp at hlen
      omega
    · intro hlen
      have hrest : rest = [] := by
        simp at hlen
        exact hlen
      subst hrest
      simp [failSeq, handle_ping_fail_not403 _ _ (hna a (by simp)),
        handle_ping_fail_not403 _ _ (hna b (by simp)),
        handle_ping_fail_not403 _ _ (hna c (by simp)), h0]

/-- C4, witnessed: three "no response" failures from a fresh connected
session leave it `DISCONNECTED`; two leave its state untouched. -/
theorem three_failures_disconnect_witness :
    (failSeq connectedSession [none, none]).status_connect =
      connectedSession.status_connect ∧
    (failSeq connectedSession [none, none, none]).status_connect =
      .DISCONNECTED :=
  ⟨(three_failures_disconnect connectedSession [none, none] rfl
      (by decide)).1 (by decide),
   (three_failures_disconnect connectedSession [none, none, none] rfl
      (by decide)).2 rfl⟩

/-! ### Preservation lemmas for the ping cycle -/

/-- `updateStat` touches only the selected record. -/
theorem updateStat_fields (s : SessionState) (i : Nat) (f : BrowserStat → BrowserStat) :
    (updateStat s i f).last_ping_time = s.last_ping_time ∧
    (updateStat s i f).proxies = s.proxies ∧
    (updateStat s i f).browser_stats.length = s.browser_stats.length := by
  simp [updateStat]

/-- One endpoint attempt leaves the session clock, the proxy list and
the number of records unchanged. -/
theorem pingAttempt_fields (s : SessionState) (i : Nat) (r : Option Response) :
    (pingAttempt s i r).1.last_ping_time = s.last_ping_time ∧
    (pingAttempt s i r).1.proxies = s.proxies ∧
    (pingAttempt s i r).1.browser_stats.length = s.browser_stats.length := by
  by_cases h : respCodeIs r 0 <;> simp [pingAttempt, updateStat, h]

/-- The endpoint loop leaves the session clock, the proxy list and the
number of records unchanged. -/
theorem pingEndpoints_fields (i : Nat) :
    ∀ (rs : List (Option Response)) (s : SessionState) (last : Option Response),
      (pingEndpoints s i rs last).1.last_ping_time = s.last_ping_time ∧
      (pingEndpoints s i rs last).1.proxies = s.proxies ∧
      (pingEndpoints s i rs last).1.browser_stats.length = s.browser_stats.length := by
  intro rs
  induction rs with
  | nil => intro s last; simp [pingEndpoints]
  | cons r rest ih =>
    intro s last
    have hA := pingAttempt_fields s i r
    by_cases h : (pingAttempt s i r).2
    · simpa [pingEndpoints, h] using hA
    · have hE := ih (pingAttempt s i r).1 r
      simp only [pingEndpoints, h]
      simp only [Bool.false_eq_true, if_false]
      exact ⟨hE.1.trans hA.1, hE.2.1.trans hA.2.1, hE.2.2.trans hA.2.2⟩

/-- Failure handling never touches the clock, proxies or the records
list. -/
theorem handle_ping_fail_fields (s : SessionState) (r : Option Response) :
    (handle_ping_fail s r).last_ping_time = s.last_ping_time ∧
    (handle_ping_fail s r).proxies = s.proxies ∧
    (handle_ping_fail s r).browser_stats = s.browser_stats := by
  by_cases h : respCodeIs r 403
  · simp [handle_ping_fail, handle_logout, h]
  · simp only [handle_ping_fail, handle_logout, h]
    split_ifs <;> simp

/-- One proxy's heartbeat step leaves the session clock, the proxy list
and the number of records unchanged. -/
theorem pingProxy_fields (net : Nat → Nat → Option Response) (t : Nat)
    (s : SessionState) (i : Nat) :
    (pingProxy net t s i).1.last_ping_time = s.last_ping_time ∧
    (pingProxy net t s i).1.proxies = s.proxies ∧
    (pingProxy net t s i).1.browser_stats.length = s.browser_stats.length := by
  by_cases hle : s.browser_stats.length ≤ i
  · simp [pingProxy, hle]
  · have hU := updateStat_fields s i (fun b => { b with last_ping_time := some t })
    have hE := pingEndpoints_fields i
      ((List.range PING_ENDPOINTS.length).map (fun e => net i e))
      (updateStat s i (fun b => { b with last_ping_time := some t })) none
    have hF := handle_ping_fail_fields
      ((pingEndpoints (updateStat s i (fun b => { b with last_ping_time := some t })) i
        ((List.range PING_ENDPOINTS.length).map (fun e => net i e)) none).1)
      ((pingEndpoints (updateStat s i (fun b => { b with last_ping_time := some t })) i
        ((List.range PING_ENDPOINTS.length).map (fun e => net i e)) none).2.2.1)
    by_cases hq : (pingEndpoints (updateStat s i
        (fun b => { b with last_ping_time := some t })) i
        ((List.range PING_ENDPOINTS.length).map (fun e => net i e)) none).2.1
    · simp only [pingProxy, hle, if_false, hq, if_true]
      exact ⟨hE.1.trans hU.1, hE.2.1.trans hU.2.1, hE.2.2.trans hU.2.2⟩
    · simp only [pingProxy, hle, if_false, hq]
      simp only [Bool.false_eq_true, if_false]
      refine ⟨hF.1.trans (hE.1.trans hU.1), hF.2.1.trans (hE.2.1.trans hU.2.1), ?_⟩
      rw [congrArg List.length hF.2.2]
      exact hE.2.2.trans hU.2.2

/-- The proxy fold of `ping` preserves the clock, the proxy list and the
number of records of its accumulator. -/
theorem ping_foldl_fields (net : Nat → Nat → Option Response) (t : Nat) :
    ∀ (l : List Nat) (acc : SessionState × Nat),
      ((l.foldl (fun acc i =>
          let p := pingProxy net t acc.1 i
          (p.1, acc.2 + p.2)) acc).1.last_ping_time = acc.1.last_ping_time ∧
       (l.foldl (fun acc i =>
          let p := pingProxy net t acc.1 i
          (p.1, acc.2 + p.2)) acc).1.proxies = acc.1.proxies ∧
       (l.foldl (fun acc i =>
          let p := pingProxy net t acc.1 i
          (p.1, acc.2 + p.2)) acc).1.browser_stats.length =
         acc.1.browser_stats.length) := by
  intro l
  induction l with
  | nil => intro acc; simp
  | cons j rest ih =>
    intro acc
    have hP := pingProxy_fields net t acc.1 j
    have hR := ih ((pingProxy net t acc.1 j).1, acc.2 + (pingProxy net t acc.1 j).2)
    simp only [List.foldl_cons]
    exact ⟨hR.1.trans hP.1, hR.2.1.trans hP.2.1, hR.2.2.trans hP.2.2⟩

/-- A non-skipped cycle stamps `last_ping_time` with its start time. -/
theorem ping_not_skipped_last (net : Nat → Nat → Option Response) (t : Nat)
    (s : SessionState) (h : ¬ (t - s.last_ping_time < PING_INTERVAL)) :
    (ping net t s).1.last_ping_time = t := by
  simp only [ping, if_neg h]
  exact (ping_foldl_fields net t _ ({ s with last_ping_time := t }, 0)).1

/-! ### C5 — heartbeat cycle idempotence within the interval -/

/-- C5.  If less than `PING_INTERVAL = 180` time-units have elapsed
since the last non-skipped cycle start, `ping` issues no requests and
returns the state unchanged; hence of two cycles run within less than
one interval of each other, at most one performs any network attempts. -/
theorem ping_within_interval_noop :
    (∀ (net : Nat → Nat → Option Response) (t : Nat) (s : SessionState),
      t - s.last_ping_time < PING_INTERVAL → ping net t s = (s, 0)) ∧
    (∀ (net1 net2 : Nat → Nat → Option Response) (t1 t2 : Nat) (s : SessionState),
      t2 - t1 < PING_INTERVAL →
      (ping net1 t1 s).2 = 0 ∨ (ping net2 t2 (ping net1 t1 s).1).2 = 0) := by
  have skip : ∀ (net : Nat → Nat → Option Response) (t : Nat) (s : SessionState),
      t - s.last_ping_time < PING_INTERVAL → ping net t s = (s, 0) := by
    intro net t s h
    simp [ping, h]
  refine ⟨skip, ?_⟩
  intro net1 net2 t1 t2 s h12
  by_cases h1 : t1 - s.last_ping_time < PING_INTERVAL
  · left
    rw [skip net1 t1 s h1]
  · right
    have hl : (ping net1 t1 s).1.last_ping_time = t1 :=
      ping_not_skipped_last net1 t1 s h1
    rw [skip net2 t2 _ (by rw [hl]; exact h12)]

/-- C5, witnessed: a cycle 100 units after the last one is the identity,
and two cycles 100 units apart make at most one round of attempts. -/
theorem ping_within_interval_noop_witness :
    ping noResponseNet 100 connectedSession = (connectedSession, 0) ∧
    ((ping noResponseNet 200 connectedSession).2 = 0 ∨
      (ping score87Net 300 (ping noResponseNet 200 connectedSession).1).2 = 0) :=
  ⟨ping_within_interval_noop.1 noResponseNet 100 connectedSession (by decide),
   ping_within_interval_noop.2 noResponseNet score87Net 200 300 connectedSession
     (by decide)⟩

/-! ### C6 — successful heartbeat -/

/-- Reading back the record `updateStat` just wrote. -/
theorem getD_updateStat_self (s : SessionState) (i : Nat)
    (f : BrowserStat → BrowserStat) (h : i < s.browser_stats.length) :
    (updateStat s i f).browser_stats.getD i default =
      f (s.browser_stats.getD i default) := by
  simp [updateStat, List.getD_eq_getElem?_getD, List.getElem?_set_self h]

/-- The single ping endpoint of `DOMAIN_API['PING']`, as the list of
responses the proxy loop consults. -/
theorem ping_endpoint_responses (net : Nat → Nat → Option Response) (i : Nat) :
    (List.range PING_ENDPOINTS.length).map (fun e => net i e) = [net i 0] :=
  rfl

/-- C6.  A heartbeat attempt on egress point `i` answered with
application code 0 resets `retries` to 0 (whatever its prior value),
sets the state to `CONNECTED`, increments that record's
`successful_pings` by exactly 1, and stores the response's
`data.ip_score` into the record's score (87 yields 87). -/
theorem heartbeat_success_updates (net : Nat → Nat → Option Response)
    (t : Nat) (s : SessionState) (i : Nat)
    (h : i < s.browser_stats.length)
    (hok : respCodeIs (net i 0) 0 = true) :
    (pingProxy net t s i).1.retries = 0 ∧
    (pingProxy net t s i).1.status_connect = .CONNECTED ∧
    ((pingProxy net t s i).1.browser_stats.getD i default).successful_pings =
      (s.browser_stats.getD i default).successful_pings + 1 ∧
    ((pingProxy net t s i).1.browser_stats.getD i default).score =
      respScore (net i 0) ∧
    (∀ (resp : Response) (d : RespData) (v : Int),
      net i 0 = some resp → resp.data = some d → d.ip_score = some v →
      ((pingProxy net t s i).1.browser_stats.getD i default).score = v) := by
  have hlen : ¬ (s.browser_stats.length ≤ i) := by omega
  have h1 : i < (updateStat s i
      (fun b => { b with last_ping_time := some t })).browser_stats.length := by
    simpa [updateStat] using h
  have h2 : i < ((updateStat s i
      (fun b => { b with last_ping_time := some t })).browser_stats.set i
        ((fun b => { b with ping_count := b.ping_count + 1 })
          ((updateStat s i (fun b => { b with last_ping_time := some t })).browser_stats.getD
            i default))).length := by
    simpa [updateStat] using h
  have key :
      (pingProxy net t s i).1 =
        updateStat
          { updateStat (updateStat s i (fun b => { b with last_ping_time := some t })) i
              (fun b => { b with ping_count := b.ping_count + 1 }) with
            retries := 0, status_connect := .CONNECTED } i
          (fun b => { b with successful_pings := b.successful_pings + 1,
                             score := respScore (net i 0) }) := by
    simp [pingProxy, hlen, ping_endpoint_responses, pingEndpoints, pingAttempt, hok]
  rw [key]
  have hfin : ∀ g : BrowserStat → BrowserStat,
      (updateStat
        { updateStat (updateStat s i (fun b => { b with last_ping_time := some t })) i
            (fun b => { b with ping_count := b.ping_count + 1 }) with
          retries := 0, status_connect := .CONNECTED } i g).browser_stats.getD i default =
      g { (s.browser_stats.getD i default) with
            last_ping_time := some t, ping_count :=
              (s.browser_stats.getD i default).ping_count + 1 } := by
    intro g
    have e2 :
        ({ updateStat (updateStat s i (fun b => { b with last_ping_time := some t })) i
            (fun b => { b with ping_count := b.ping_count + 1 }) with
          retries := 0, status_connect := ConnectionStates.CONNECTED } :
            SessionState).browser_stats.getD i default =
          { (s.browser_stats.getD i default) with
              last_ping_time := some t,
              ping_count := (s.browser_stats.getD i default).ping_count + 1 } := by
      show (updateStat (updateStat s i (fun b => { b with last_ping_time := some t })) i
          (fun b => { b with ping_count := b.ping_count + 1 })).browser_stats.getD i default = _
      rw [getD_updateStat_self _ _ _ h1, getD_updateStat_self _ _ _ h]
    rw [getD_updateStat_self _ _ _ (by simpa [updateStat] using h), e2]
  refine ⟨by simp [updateStat], by simp [updateStat], ?_, ?_, ?_⟩
  · rw [hfin]
  · rw [hfin]
  · intro resp d v hresp hdata hscore
    rw [hfin]
    simp [respScore, hresp, hdata, hscore]

/-- C6, witnessed: the spec's scenario — a `{code:0, data:{ip_score:87}}`
heartbeat response on a fresh one-proxy session. -/
theorem heartbeat_success_updates_witness :
    (pingProxy score87Net 500 freshSession 0).1.retries = 0 ∧
    (pingProxy score87Net 500 freshSession 0).1.status_connect = .CONNECTED ∧
    ((pingProxy score87Net 500 freshSession 0).1.browser_stats.getD 0
        default).successful_pings =
      (freshSession.browser_stats.getD 0 default).successful_pings + 1 ∧
    ((pingProxy score87Net 500 freshSession 0).1.browser_stats.getD 0
        default).score = 87 := by
  obtain ⟨hr, hc, hs, -, hv⟩ :=
    heartbeat_success_updates score87Net 500 freshSession 0 (by decide) (by decide)
  exact ⟨hr, hc, hs, hv _ _ 87 rfl rfl rfl⟩

/-! ### C10 — ping_count dominates successful_pings -/

/-- A `getD` lookup is either a list member or the default. -/
theorem getD_mem_or_default (l : List BrowserStat) (i : Nat) :
    l.getD i default ∈ l ∨ l.getD i default = default := by
  by_cases h : i < l.length
  · left
    rw [List.getD_eq_getElem?_getD, List.getElem?_eq_getElem h]
    exact List.getElem_mem h
  · right
    rw [List.getD_eq_getElem?_getD, List.getElem?_eq_none (by omega)]
    rfl

/-- What one endpoint attempt does to record `i`: always `ping_count + 1`,
and additionally `successful_pings + 1` and the response score on
success. -/
theorem pingAttempt_getD (s : SessionState) (i : Nat) (r : Option Response)
    (hi : i < s.browser_stats.length) :
    (pingAttempt s i r).1.browser_stats.getD i default =
      (if respCodeIs r 0 then
        { s.browser_stats.getD i default with
            ping_count := (s.browser_stats.getD i default).ping_count + 1
            successful_pings :=
              (s.browser_stats.getD i default).successful_pings + 1
            score := respScore r }
       else
        { s.browser_stats.getD i default with
            ping_count := (s.browser_stats.getD i default).ping_count + 1 }) := by
  by_cases hok : respCodeIs r 0
  · simp only [pingAttempt, hok, if_true]
    have h2 : i < ({ updateStat s i (fun b => { b with ping_count := b.ping_count + 1 }) with
        retries := 0, status_connect := ConnectionStates.CONNECTED } :
          SessionState).browser_stats.length := by
      simpa [updateStat] using hi
    rw [getD_updateStat_self _ _ _ h2]
    have e2 : ({ updateStat s i (fun b => { b with ping_count := b.ping_count + 1 }) with
        retries := 0, status_connect := ConnectionStates.CONNECTED } :
          SessionState).browser_stats.getD i default =
        { s.browser_stats.getD i default with
            ping_count := (s.browser_stats.getD i default).ping_count + 1 } := by
      show (updateStat s i
          (fun b => { b with ping_count := b.ping_count + 1 })).browser_stats.getD i default = _
      exact getD_updateStat_self s i _ hi
    rw [e2]
  · simp only [pingAttempt, hok]
    simp only [Bool.false_eq_true, if_false]
    rw [getD_updateStat_self _ _ _ hi]

/-- Failure handling changes no record, so it keeps any per-record
property. -/
theorem handle_ping_fail_inv (s : SessionState) (r : Option Response)
    (h : ∀ b ∈ s.browser_stats, b.successful_pings ≤ b.ping_count) :
    ∀ b ∈ (handle_ping_fail s r).browser_stats,
      b.successful_pings ≤ b.ping_count := by
  rw [(handle_ping_fail_fields s r).2.2]
  exact h

/-- One endpoint attempt keeps `successful_pings ≤ ping_count` in every
record. -/
theorem pingAttempt_inv (s : SessionState) (i : Nat) (r : Option Response)
    (hi : i < s.browser_stats.length)
    (h : ∀ b ∈ s.browser_stats, b.successful_pings ≤ b.ping_count) :
    ∀ b ∈ (pingAttempt s i r).1.browser_stats,
      b.successful_pings ≤ b.ping_count := by
  have hx : (s.browser_stats.getD i default).successful_pings ≤
      (s.browser_stats.getD i default).ping_count := by
    rcases getD_mem_or_default s.browser_stats i with hm | he
    · exact h _ hm
    · rw [he]
      exact Nat.le_refl _
  intro b hb
  by_cases hok : respCodeIs r 0
  · simp only [pingAttempt, hok, if_true, updateStat] at hb
    rcases List.mem_or_eq_of_mem_set hb with hb1 | rfl
    · rcases List.mem_or_eq_of_mem_set hb1 with hb2 | rfl
      · exact h _ hb2
      · exact Nat.le_succ_of_le hx
    · have e1 : ((s.browser_stats.set i
          { s.browser_stats.getD i default with
              ping_count := (s.browser_stats.getD i default).ping_count + 1 }).getD
            i default) =
          { s.browser_stats.getD i default with
              ping_count := (s.browser_stats.getD i default).ping_count + 1 } := by
        rw [List.getD_eq_getElem?_getD, List.getElem?_set_self hi]
        rfl
      simp only [e1]
      exact Nat.succ_le_succ hx
  · simp only [pingAttempt, hok, Bool.false_eq_true, if_false, updateStat] at hb
    rcases List.mem_or_eq_of_mem_set hb with hb1 | rfl
    · exact h _ hb1
    · exact Nat.le_succ_of_le hx

/-- The endpoint loop keeps `successful_pings ≤ ping_count`. -/
theorem pingEndpoints_inv (i : Nat) :
    ∀ (rs : List (Option Response)) (s : SessionState) (last : Option Response),
      i < s.browser_stats.length →
      (∀ b ∈ s.browser_stats, b.successful_pings ≤ b.ping_count) →
      ∀ b ∈ (pingEndpoints s i rs last).1.browser_stats,
        b.successful_pings ≤ b.ping_count := by
  intro rs
  induction rs with
  | nil => intro s last _ h; simpa [pingEndpoints] using h
  | cons r rest ih =>
    intro s last hi h
    by_cases hp : (pingAttempt s i r).2
    · simp only [pingEndpoints, hp, if_true]
      exact pingAttempt_inv s i r hi h
    · simp only [pingEndpoints, hp, Bool.false_eq_true, if_false]
      exact ih (pingAttempt s i r).1 r
        (by rw [(pingAttempt_fields s i r).2.2]; exact hi)
        (pingAttempt_inv s i r hi h)

/-- One proxy's heartbeat step keeps `successful_pings ≤ ping_count`. -/
theorem pingProxy_inv (net : Nat → Nat → Option Response) (t : Nat)
    (s : SessionState) (i : Nat)
    (h : ∀ b ∈ s.browser_stats, b.successful_pings ≤ b.ping_count) :
    ∀ b ∈ (pingProxy net t s i).1.browser_stats,
      b.successful_pings ≤ b.ping_count := by
  by_cases hle : s.browser_stats.length ≤ i
  · simpa [pingProxy, hle] using h
  · have hi : i < s.browser_stats.length := by omega
    have hstamp : ∀ b ∈ (updateStat s i
        (fun b => { b with last_ping_time := some t })).browser_stats,
        b.successful_pings ≤ b.ping_count := by
      intro b hb
      simp only [updateStat] at hb
      rcases List.mem_or_eq_of_mem_set hb with hb1 | rfl
      · exact h _ hb1
      · rcases getD_mem_or_default s.browser_stats i with hm | he
        · exact h (s.browser_stats.getD i default) hm
        · rw [he]
          exact Nat.le_refl _
    have hi1 : i < (updateStat s i
        (fun b => { b with last_ping_time := some t })).browser_stats.length := by
      simpa [updateStat] using hi
    have hend := pingEndpoints_inv i
      ((List.range PING_ENDPOINTS.length).map (fun e => net i e))
      (updateStat s i (fun b => { b with last_ping_time := some t })) none hi1 hstamp
    by_cases hq : (pingEndpoints (updateStat s i
        (fun b => { b with last_ping_time := some t })) i
        ((List.range PING_ENDPOINTS.length).map (fun e => net i e)) none).2.1
    · simpa only [pingProxy, hle, if_false, hq, if_true] using hend
    · simp only [pingProxy, hle, if_false, hq, Bool.false_eq_true]
      exact handle_ping_fail_inv _ _ hend

/-- The proxy fold of `ping` keeps `successful_pings ≤ ping_count`. -/
theorem ping_foldl_inv (net : Nat → Nat → Option Response) (t : Nat) :
    ∀ (l : List Nat) (acc : SessionState × Nat),
      (∀ b ∈ acc.1.browser_stats, b.successful_pings ≤ b.ping_count) →
      ∀ b ∈ (l.foldl (fun acc i =>
          let p := pingProxy net t acc.1 i
          (p.1, acc.2 + p.2)) acc).1.browser_stats,
        b.successful_pings ≤ b.ping_count := by
  intro l
  induction l with
  | nil => intro acc h; simpa using h
  | cons j rest ih =>
    intro acc h
    simp only [List.foldl_cons]
    exact ih ((pingProxy net t acc.1 j).1, acc.2 + (pingProxy net t acc.1 j).2)
      (pingProxy_inv net t acc.1 j h)

/-- C10.  Every heartbeat endpoint attempt bumps that record's
`ping_count` by exactly 1, succeed or fail, while `successful_pings` is
bumped only on success; consequently `successful_pings ≤ ping_count` in
every record is preserved by every heartbeat cycle. -/
theorem ping_count_dominates_successes :
    (∀ (s : SessionState) (i : Nat) (r : Option Response),
      i < s.browser_stats.length →
      (((pingAttempt s i r).1.browser_stats.getD i default).ping_count =
        (s.browser_stats.getD i default).ping_count + 1) ∧
      (respCodeIs r 0 = true →
        ((pingAttempt s i r).1.browser_stats.getD i default).successful_pings =
          (s.browser_stats.getD i default).successful_pings + 1) ∧
      (respCodeIs r 0 = false →
        ((pingAttempt s i r).1.browser_stats.getD i default).successful_pings =
          (s.browser_stats.getD i default).successful_pings)) ∧
    (∀ (net : Nat → Nat → Option Response) (t : Nat) (s : SessionState),
      (∀ b ∈ s.browser_stats, b.successful_pings ≤ b.ping_count) →
      ∀ b ∈ (ping net t s).1.browser_stats,
        b.successful_pings ≤ b.ping_count) := by
  constructor
  · intro s i r hi
    rw [pingAttempt_getD s i r hi]
    by_cases hok : respCodeIs r 0 <;> simp [hok]
  · intro net t s h
    by_cases hskip : t - s.last_ping_time < PING_INTERVAL
    · simpa [ping, hskip] using h
    · simp only [ping, if_neg hskip]
      exact ping_foldl_inv net t _ ({ s with last_ping_time := t }, 0) h

/-- C10, witnessed on a fresh one-proxy session: a successful attempt
bumps both counters, and after a full failing cycle the invariant still
holds for its record. -/
theorem ping_count_dominates_successes_witness :
    ((pingAttempt freshSession 0 (some { code := some 0 })).1.browser_stats.getD 0
        default).ping_count =
      (freshSession.browser_stats.getD 0 default).ping_count + 1 ∧
    ((ping noResponseNet 400 freshSession).1.browser_stats.getD 0
        default).successful_pings ≤
      ((ping noResponseNet 400 freshSession).1.browser_stats.getD 0
        default).ping_count :=
  ⟨(ping_count_dominates_successes.1 freshSession 0 (some { code := some 0 })
      (by decide)).1,
   ping_count_dominates_successes.2 noResponseNet 400 freshSession (by decide)
     ((ping noResponseNet 400 freshSession).1.browser_stats.getD 0 default)
     (by decide)⟩

/-! ### C9 — one heartbeat record per egress point

First, enough about decimal rendering to show the generated browser ids
are pairwise distinct: `Nat.repr`'s fuelled digit loop equals
`decDigits`, whose value roundtrips. -/

/-- With sufficient fuel, `Nat.toDigitsCore` prepends `decDigits`. -/
theorem toDigitsCore_eq_decDigits :
    ∀ (f n : Nat) (ds : List Char), n < f →
      Nat.toDigitsCore 10 f n ds = decDigits n ++ ds := by
  intro f
  induction f with
  | zero => intro n ds h; omega
  | succ f ih =>
    intro n ds _h
    by_cases h10 : n / 10 = 0
    · simp only [Nat.toDigitsCore, h10, if_true]
      rw [decDigits]
      simp [h10]
    · simp only [Nat.toDigitsCore, h10, if_false]
      have hpos : 0 < n := by
        rcases Nat.eq_zero_or_pos n with rfl | hp
        · simp at h10
        · exact hp
      have hlt : n / 10 < f := by
        have h1 : n / 10 < n := Nat.div_lt_self hpos (by norm_num)
        omega
      rw [ih (n / 10) (Nat.digitChar (n % 10) :: ds) hlt]
      conv_rhs => rw [decDigits]
      rw [dif_neg h10]
      simp

/-- `Nat.repr` renders exactly the `decDigits` string. -/
theorem repr_eq_decDigits (n : Nat) : Nat.repr n = (decDigits n).asString := by
  show (Nat.toDigitsCore 10 (n + 1) n []).asString = (decDigits n).asString
  rw [toDigitsCore_eq_decDigits (n + 1) n [] (Nat.lt_succ_self n),
    List.append_nil]

/-- Decimal digit characters have code `48 + m`. -/
theorem digitChar_toNat (m : Nat) (h : m < 10) :
    (Nat.digitChar m).toNat = 48 + m := by
  interval_cases m <;> decide

/-- The value of the rendered digits is the number itself. -/
theorem decValue_decDigits (n : Nat) : decValue (decDigits n) = n := by
  induction n using Nat.strong_induction_on with
  | _ n ih =>
    rw [decDigits]
    by_cases h10 : n / 10 = 0
    · rw [dif_pos h10]
      have hlt : n < 10 := by
        rcases Nat.lt_or_ge n 10 with h | h
        · exact h
        · exact absurd h10 (by
            have : 1 ≤ n / 10 := (Nat.le_div_iff_mul_le (by norm_num)).mpr (by omega)
            omega)
      have hmod : n % 10 = n := Nat.mod_eq_of_lt hlt
      simp only [decValue, List.foldl_cons, List.foldl_nil]
      rw [digitChar_toNat (n % 10) (Nat.mod_lt _ (by norm_num))]
      omega
    · rw [dif_neg h10]
      have hpos : 0 < n := by
        rcases Nat.eq_zero_or_pos n with rfl | hp
        · simp at h10
        · exact hp
      have h1 : n / 10 < n := Nat.div_lt_self hpos (by norm_num)
      have ihv := ih (n / 10) h1
      simp only [decValue, List.foldl_append, List.foldl_cons, List.foldl_nil]
      simp only [decValue] at ihv
      rw [ihv, digitChar_toNat (n % 10) (Nat.mod_lt _ (by norm_num))]
      have := Nat.div_add_mod n 10
      omega

/-- Two browser ids generated at the same session start time agree only
for the same proxy index. -/
theorem mkBrowserId_inj (t : Nat) {i j : Nat}
    (h : mkBrowserId i t = mkBrowserId j t) : i = j := by
  have hd := congrArg String.data h
  simp only [mkBrowserId, String.data_append, List.append_assoc] at hd
  have h2 := List.append_cancel_left hd
  have h3 := List.append_cancel_right h2
  have h4 : Nat.repr i = Nat.repr j := String.ext h3
  rw [repr_eq_decDigits, repr_eq_decDigits] at h4
  have h5 : decDigits i = decDigits j := congrArg String.data h4
  have h6 := congrArg decValue h5
  rwa [decValue_decDigits, decValue_decDigits] at h6

/-- `authenticate` never touches the records or the proxy list. -/
theorem authGo_fields (net : Nat → Option Response) :
    ∀ (l : List Nat) (s : SessionState),
      (authGo net l s).1.browser_stats = s.browser_stats ∧
      (authGo net l s).1.proxies = s.proxies := by
  intro l
  induction l with
  | nil => intro s; exact ⟨rfl, rfl⟩
  | cons i rest ih =>
    intro s
    by_cases ha : s.proxy_auth_status
    · simpa [authGo, ha] using ih s
    · cases hnet : net i with
      | none => simpa [authGo, ha, hnet] using ih s
      | some resp =>
        by_cases hc : resp.code ≠ some 0
        · simpa [authGo, ha, hnet, hc] using ih s
        · by_cases hu : (resp.data.getD {}).uid.isSome
          · simp [authGo, ha, hnet, hc, hu]
          · simpa [authGo, ha, hnet, hc, hu] using
              ih { s with account_info := resp.data.getD {} }

/-- A full ping cycle preserves the record count and the proxy list. -/
theorem ping_fields (net : Nat → Nat → Option Response) (t : Nat)
    (s : SessionState) :
    (ping net t s).1.browser_stats.length = s.browser_stats.length ∧
    (ping net t s).1.proxies = s.proxies := by
  by_cases h : t - s.last_ping_time < PING_INTERVAL
  · simp [ping, h]
  · simp only [ping, if_neg h]
    have hf := ping_foldl_fields net t (List.range s.proxies.length)
      ({ s with last_ping_time := t }, 0)
    exact ⟨hf.2.2, hf.2.1⟩

/-- C9.  `initialize_browser_stats` creates exactly one record per
egress point — fresh pairwise-distinct ids, zeroed counters — and every
subsequent operation (heartbeat cycle, authentication, failure
handling, logout) preserves the record count and the proxy list, so the
records-per-egress-point equality holds for the session's lifetime. -/
theorem records_match_egress_points :
    (∀ (t : Nat) (s : SessionState),
      (initialize_browser_stats t s).browser_stats.length = s.proxies.length ∧
      (initialize_browser_stats t s).proxies = s.proxies ∧
      (∀ b ∈ (initialize_browser_stats t s).browser_stats,
        b.ping_count = 0 ∧ b.successful_pings = 0 ∧ b.score = 0 ∧
          b.last_ping_time = none) ∧
      ((initialize_browser_stats t s).browser_stats.map
        (fun b => b.browser_id)).Pairwise (· ≠ ·)) ∧
    (∀ (net : Nat → Nat → Option Response) (t : Nat) (s : SessionState),
      (ping net t s).1.browser_stats.length = s.browser_stats.length ∧
      (ping net t s).1.proxies = s.proxies) ∧
    (∀ (net : Nat → Option Response) (s : SessionState),
      (authenticate net s).1.browser_stats = s.browser_stats ∧
      (authenticate net s).1.proxies = s.proxies) ∧
    (∀ (s : SessionState) (r : Option Response),
      (handle_ping_fail s r).browser_stats = s.browser_stats ∧
      (handle_ping_fail s r).proxies = s.proxies) ∧
    (∀ s : SessionState,
      (handle_logout s).browser_stats = s.browser_stats ∧
      (handle_logout s).proxies = s.proxies) := by
  refine ⟨?_, ping_fields, fun net s => authGo_fields net _ s, ?_, fun s => ⟨rfl, rfl⟩⟩
  · intro t s
    refine ⟨by simp [initialize_browser_stats], rfl, ?_, ?_⟩
    · intro b hb
      simp only [initialize_browser_stats, List.mem_map, List.mem_range] at hb
      obtain ⟨i, -, rfl⟩ := hb
      exact ⟨rfl, rfl, rfl, rfl⟩
    · simp only [initialize_browser_stats, List.map_map]
      refine List.Pairwise.map _ (fun a b (hab : a < b) => ?_)
        (List.pairwise_lt_range s.proxies.length)
      show mkBrowserId a t ≠ mkBrowserId b t
      intro he
      have := mkBrowserId_inj t he
      omega
  · intro s r
    exact ⟨(handle_ping_fail_fields s r).2.2, (handle_ping_fail_fields s r).2.1⟩

/-- C9, witnessed on a two-proxy session initialized at time 100. -/
theorem records_match_egress_points_witness :
    (initialize_browser_stats 100 (initialSession ["p1", "p2"])).browser_stats.length =
      (initialSession ["p1", "p2"]).proxies.length ∧
    ((initialize_browser_stats 100
        (initialSession ["p1", "p2"])).browser_stats.getD 0 default).ping_count = 0 :=
  ⟨(records_match_egress_points.1 100 (initialSession ["p1", "p2"])).1,
   ((records_match_egress_points.1 100 (initialSession ["p1", "p2"])).2.2.1
      ((initialize_browser_stats 100
        (initialSession ["p1", "p2"])).browser_stats.getD 0 default)
      (by decide)).1⟩

/-! ### C8 — authentication across egress points -/

/-- Once authenticated, every remaining egress point is skipped and no
request is issued. -/
theorem authGo_skip_authenticated (net : Nat → Option Response) :
    ∀ (l : List Nat) (s : SessionState), s.proxy_auth_status = true →
      authGo net l s = (s, 0) := by
  intro l
  induction l with
  | nil => intro s _; rfl
  | cons i rest ih => intro s h; simp [authGo, h, ih s h]

/-- The loop ends authenticated iff it started authenticated or some
attempted egress point got a code-0 response with a `uid` key. -/
theorem authGo_success_iff (net : Nat → Option Response) :
    ∀ (l : List Nat) (s : SessionState),
      (authGo net l s).1.proxy_auth_status = true ↔
        (s.proxy_auth_status = true ∨ ∃ i ∈ l, codeAuthSuccess (net i) = true) := by
  intro l
  induction l with
  | nil => intro s; simp [authGo]
  | cons i rest ih =>
    intro s
    by_cases ha : s.proxy_auth_status
    · simp [authGo, ha, ih s]
    · cases hnet : net i with
      | none =>
        simp only [authGo, ha, Bool.false_eq_true, if_false, hnet]
        rw [ih s]
        simp [ha, codeAuthSuccess, hnet]
      | some resp =>
        have haf : s.proxy_auth_status = false := by simpa using ha
        by_cases hc : resp.code = some 0
        · by_cases hu : (resp.data.getD {}).uid.isSome
          · simp [authGo, haf, hnet, hc, hu, codeAuthSuccess]
          · have hrec := ih { s with account_info := resp.data.getD {} }
            rw [haf] at hrec
            simp [authGo, haf, hnet, hc, hu, codeAuthSuccess, hrec]
        · have hrec := ih s
          simp [authGo, haf, hnet, hc, codeAuthSuccess, hrec]

/-- Running the loop from an unauthenticated state over a prefix of
failing egress points followed by a succeeding one: one request per
prefix element plus the succeeding one, `account_info` set from the
succeeding response, authenticated, everything after untouched. -/
theorem authGo_first_success (net : Nat → Option Response) (resp : Response)
    (hc : resp.code = some 0) (hu : (resp.data.getD {}).uid.isSome = true) :
    ∀ (l1 : List Nat) (i : Nat) (l2 : List Nat) (s : SessionState),
      s.proxy_auth_status = false →
      (∀ j ∈ l1, codeAuthSuccess (net j) = false) →
      net i = some resp →
      authGo net (l1 ++ i :: l2) s =
        ({ s with account_info := resp.data.getD {},
                  proxy_auth_status := true }, l1.length + 1) := by
  intro l1
  induction l1 with
  | nil =>
    intro i l2 s ha _ hnet
    simp [authGo, ha, hnet, hc, hu]
  | cons j l1' ih =>
    intro i l2 s ha hl1 hnet
    have hj : codeAuthSuccess (net j) = false := hl1 j (by simp)
    have hl1' : ∀ k ∈ l1', codeAuthSuccess (net k) = false := fun k hk =>
      hl1 k (by simp [hk])
    cases hjnet : net j with
    | none =>
      simp only [List.cons_append, authGo, ha, Bool.false_eq_true, if_false, hjnet,
        List.append_eq]
      rw [ih i l2 s ha hl1' hnet]
      simp
    | some respj =>
      by_cases hcj : respj.code = some 0
      · have huj : (respj.data.getD {}).uid.isSome = false := by
          have h0 := hj
          simp only [codeAuthSuccess, hjnet, hcj] at h0
          simpa using h0
        simp only [List.cons_append, authGo, ha, Bool.false_eq_true, if_false,
          hjnet, hcj, huj, List.append_eq]
        rw [if_neg (fun h => h rfl)]
        rw [ih i l2
          { s with
              account_info := respj.data.getD ({}),
              proxy_auth_status := false } rfl hl1' hnet]
        simp
      · simp only [List.cons_append, authGo, ha, Bool.false_eq_true, if_false,
          hjnet, List.append_eq]
        rw [if_pos (by simpa using hcj)]
        rw [ih i l2 s ha hl1' hnet]
        simp

/-- C8 counterexample.  The source tests only `'uid' in self.account_info`
(src/node.py line 163), not non-emptiness: a `{code:0, data:{uid:""}}`
response authenticates the session, although the spec's success
condition (code 0 AND non-empty `data.uid`) does not hold. -/
theorem empty_uid_accepted :
    (authenticate emptyUidNet (initialSession ["p1"])).1.proxy_auth_status = true ∧
    ¬ specAuthSuccess (emptyUidNet 0) := by
  constructor
  · decide
  · rintro ⟨-, u, hu, hne⟩
    simp [emptyUidNet] at hu
    exact hne hu.symm

/-- C8 amended.  Egress points are tried in loaded order; all remaining
ones are skipped once authenticated (no further requests).
Authentication succeeds on an egress point iff its response has code 0
and a PRESENT (possibly empty) `data.uid`; then `account_info` is set
from the response's data, the session is marked authenticated
(`save_session_info` is invoked — a no-op stub), and iteration stops
after exactly one request per previously tried egress point plus this
one.  A code-0 response without a `uid` key is a failure and iteration
continues. -/
theorem authenticate_order_and_success :
    (∀ (net : Nat → Option Response) (s : SessionState),
      s.proxy_auth_status = true → authenticate net s = (s, 0)) ∧
    (∀ (net : Nat → Option Response) (s : SessionState),
      (authenticate net s).1.proxy_auth_status = true ↔
        (s.proxy_auth_status = true ∨
          ∃ i ∈ List.range s.proxies.length, codeAuthSuccess (net i) = true)) ∧
    (∀ (net : Nat → Option Response) (s : SessionState) (l1 : List Nat)
        (i : Nat) (l2 : List Nat) (resp : Response),
      s.proxy_auth_status = false →
      List.range s.proxies.length = l1 ++ i :: l2 →
      (∀ j ∈ l1, codeAuthSuccess (net j) = false) →
      net i = some resp → resp.code = some 0 →
      (resp.data.getD {}).uid.isSome = true →
      authenticate net s =
        ({ s with account_info := resp.data.getD {},
                  proxy_auth_status := true }, l1.length + 1)) := by
  refine ⟨fun net s h => authGo_skip_authenticated net _ s h,
          fun net s => authGo_success_iff net _ s, ?_⟩
  intro net s l1 i l2 resp ha hrange hl1 hnet hc hu
  rw [authenticate, hrange]
  exact authGo_first_success net resp hc hu l1 i l2 s ha hl1 hnet

/-- C8 amended, witnessed: an authenticated session skips everything; a
session with an unreachable first proxy authenticates through the
second with uid "abc" after exactly 2 requests. -/
theorem authenticate_order_and_success_witness :
    authenticate (fun _ => none) connectedSession = (connectedSession, 0) ∧
    authenticate uidNet (initialSession ["p1", "p2"]) =
      ({ initialSession ["p1", "p2"] with
          account_info := { uid := some "abc" },
          proxy_auth_status := true }, 2) :=
  ⟨authenticate_order_and_success.1 (fun _ => none) connectedSession rfl,
   authenticate_order_and_success.2.2 uidNet (initialSession ["p1", "p2"])
     [0] 1 [] { code := some 0, data := some { uid := some "abc" } }
     rfl rfl (by decide) rfl rfl rfl⟩

end Node
